import Mathlib

/-!
Shallow embedding of the trading decision and position-lifecycle engine of
`api-worker/src/index.ts` (the "vibe trader" Cloudflare worker), together with
theorems settling the specification claims about it.

Conventions of the embedding:
* JS `number` values (prices, quantities, dollar amounts and millisecond
  timestamps alike) are embedded as `ℚ`, JS having a single number type.
* The persisted KV store is explicit state: JS objects keyed by symbol become
  association lists (`List (String × _)`), KV `get`/`put` become reads and
  functional updates of a store record.
* Network calls (exchange, oracle) are inputs: their responses are parameters
  of the embedded functions, `Option`/`Except` encoding failure.
* JS truthiness on numbers (`x || y`, `if (x)`) is embedded by explicit
  comparison with `0`; `?.`/`??` chains on untrusted JSON become `Option`.
-/

namespace Vibe

/-- Trade direction, from the `'LONG' | 'SHORT'` union in `index.ts`. -/
inductive Side where
  | LONG
  | SHORT
deriving DecidableEq, Repr

/-- Oracle decision, from the `'LONG' | 'SHORT' | 'FLAT'` union in `index.ts`. -/
inductive Action where
  | LONG
  | SHORT
  | FLAT
deriving DecidableEq, Repr

/-- The `OpenTrade` record of `index.ts` (open-position map values). -/
structure OpenTrade where
  symbol : String
  side : Side
  qty : ℚ
  entryPrice : ℚ
  notionalEntry : ℚ
  openedAt : ℚ
  provider : Option String := none
  model : Option String := none
  stopLoss : Option ℚ := none
  takeProfit : Option ℚ := none
  minHoldMs : Option ℚ := none
  thesis : Option String := none
deriving DecidableEq, Repr

/-- The `ClosedTrade` record of `index.ts`. -/
structure ClosedTrade where
  symbol : String
  side : Side
  qty : ℚ
  entryPrice : ℚ
  exitPrice : ℚ
  notionalEntry : ℚ
  notionalExit : ℚ
  openedAt : ℚ
  closedAt : ℚ
  holdingMs : ℚ
  pnlUsd : ℚ
  provider : Option String := none
  model : Option String := none
  thesis : Option String := none
deriving DecidableEq, Repr

/-! ### Closed-trade list: `appendClosedTrade`

`index.ts` lines 464-470: push the trade, then
`if (list.length > 2000) list.splice(0, list.length - 2000)`,
i.e. keep only the most recent 2000 entries. -/

/-- Capacity of the closed-trade ring (`2000` in `appendClosedTrade`). -/
def closedTradeCap : ℕ := 2000

/-- Embeds `appendClosedTrade` of `index.ts`: append and evict the oldest entries
beyond the capacity. -/
def appendClosedTradeList (list : List ClosedTrade) (trade : ClosedTrade) :
    List ClosedTrade :=
  let l := list ++ [trade]
  if l.length > closedTradeCap then l.drop (l.length - closedTradeCap) else l

/-! ### Order Execution Gateway: lot-size quantization

`index.ts` lines 944-945 (new order) and 699-700 (close path):
`const steps = Math.max(1, Math.floor(qty / step)); qty = steps * step`. -/

/-- Quantize a requested quantity to the symbol's lot-size step, as in
`index.ts` (`Math.max(1, Math.floor(qty / step)) * step`). -/
def quantizeQty (q step : ℚ) : ℚ :=
  ((max 1 ⌊q / step⌋ : ℤ) : ℚ) * step

/-! ### Risk Governor: order sizing

`index.ts` lines 772-773:
`const targetRisk = Math.max(0, Math.floor((state.balances?.equityUsd || availableBalance) * 0.50));`
`const sizeUsd = Math.min(cfg.maxRiskPerTradeUsd, targetRisk);` -/

/-- The fixed target fraction of equity used for sizing (`0.50` in `index.ts`). -/
def targetFraction : ℚ := 1 / 2

/-- Order sizing of `vibeTick`. The `equityUsd || availableBalance` JS
fallback fires exactly when `equityUsd` is zero (falsy). -/
def computeSizeUsd (equityUsd availableBalance maxRiskPerTradeUsd : ℚ) : ℚ :=
  let base := if equityUsd = 0 then availableBalance else equityUsd
  let targetRisk : ℚ := max 0 ((⌊base * targetFraction⌋ : ℤ) : ℚ)
  min maxRiskPerTradeUsd targetRisk

/-! ### Status Narrator: dedup with forced emission

`index.ts` lines 864-898. `last.at` is written back only on the two emitting
branches, so `lastAt` is the time of the last emission. -/

/-- Dedup window (`3 * 60 * 1000` in `index.ts`). -/
def recentWindowMs : ℚ := 3 * 60 * 1000

/-- Forced-emission interval (`5 * 60 * 1000` in `index.ts`). -/
def minStatusIntervalMs : ℚ := 5 * 60 * 1000

/-- Relative equity move.  `index.ts`:
`const pctMove = lastEq > 0 ? Math.abs((eq - lastEq) / lastEq) : 0`. -/
def pctMove (eq lastEq : ℚ) : ℚ :=
  if lastEq > 0 then |eq - lastEq| / lastEq else 0

/-- Whether a FLAT status summary is emitted (`true`) or suppressed
(`false`).  Mirrors the branch structure of `index.ts` lines 877-898:
suppression requires a duplicate hash, less than the recent window elapsed
and a small equity move; the inner branch force-emits once the minimum
status interval has elapsed. -/
def statusEmit (isDuplicate : Bool) (nowTs lastAt : ℚ) (move : ℚ) : Bool :=
  if isDuplicate ∧ nowTs - lastAt < recentWindowMs ∧ move < 3 / 1000 then
    if nowTs - lastAt ≥ minStatusIntervalMs then true else false
  else true

/-! ### Position Lifecycle Manager: OPEN → CLOSING decision

`index.ts` lines 640-665.  Per open position, every tick: stop-loss is
checked first and unconditionally; take-profit only when the minimum hold
has elapsed and no close is already scheduled; the hard dollar-loss cap
last, unconditionally. -/

/-- Embeds `minHoldOk` of `index.ts` line 641:
`typeof t.minHoldMs === 'number' ? now - t.openedAt >= t.minHoldMs : true`. -/
def minHoldOk (t : OpenTrade) (now : ℚ) : Bool :=
  match t.minHoldMs with
  | some m => decide (now - t.openedAt ≥ m)
  | none => true

/-- Result of the per-position exit evaluation (`shouldClose`, `reason`). -/
structure ExitDecision where
  shouldClose : Bool
  reason : String
deriving DecidableEq, Repr

/-- Unrealized P&L at `price`, as computed inline in `index.ts` line 661. -/
def unrealizedPnl (t : OpenTrade) (price : ℚ) : ℚ :=
  match t.side with
  | .LONG => (price - t.entryPrice) * t.qty
  | .SHORT => (t.entryPrice - price) * t.qty

/-- The OPEN→CLOSING evaluation of `vibeTick` (`index.ts` lines 645-665),
for a position with a valid positive price. -/
def evalExit (maxLossPerTradeUsd : Option ℚ) (t : OpenTrade) (price : ℚ)
    (now : ℚ) : ExitDecision :=
  let d0 : ExitDecision := ⟨false, ""⟩
  -- Always enforce stop-loss immediately
  let d1 : ExitDecision :=
    match t.stopLoss with
    | some sl =>
        if (t.side = .LONG ∧ price ≤ sl) ∨ (t.side = .SHORT ∧ price ≥ sl) then
          ⟨true, "Stop-loss hit"⟩
        else d0
    | none => d0
  -- Take-profit only after min-hold window
  let d2 : ExitDecision :=
    if d1.shouldClose then d1
    else if minHoldOk t now then
      match t.takeProfit with
      | some tp =>
          if (t.side = .LONG ∧ price ≥ tp) ∨ (t.side = .SHORT ∧ price ≤ tp) then
            ⟨true, "Take-profit hit"⟩
          else d1
      | none => d1
    else d1
  -- Hard dollar loss cap (ignores min-hold)
  if d2.shouldClose then d2
  else
    match maxLossPerTradeUsd with
    | some cap =>
        if cap > 0 ∧ unrealizedPnl t price ≤ -|cap| then
          ⟨true, "Max loss hit"⟩
        else d2
    | none => d2

/-! ### Open-position map

The open-position map is a JS object keyed by symbol
(`/vibe_open_trades.json`); embedded as an association list with the JS
object semantics: assignment replaces the value of an existing key in
place, `delete` removes the entry. -/

/-- Lookup in a JS object embedded as an association list
(`obj[k]`, `undefined` as `none`). -/
def assocGet {α : Type} (m : List (String × α)) (k : String) : Option α :=
  (m.find? (fun p => p.1 = k)).map (fun p => p.2)

/-- Assignment in a JS object (`obj[k] = v`): replace the value of an
existing key in place, else append the new key. -/
def assocSet {α : Type} (m : List (String × α)) (k : String) (v : α) :
    List (String × α) :=
  if m.any (fun p => p.1 = k) then
    m.map (fun p => if p.1 = k then (k, v) else p)
  else m ++ [(k, v)]

/-- Deletion in a JS object (`delete obj[k]`). -/
def assocDelete {α : Type} (m : List (String × α)) (k : String) :
    List (String × α) :=
  m.filter (fun p => p.1 ≠ k)

/-- Lookup (`openMap[sym]`). -/
def mapGet (m : List (String × OpenTrade)) (k : String) : Option OpenTrade :=
  assocGet m k

/-- Assignment (`openMap[sym] = t`): replace in place, else append. -/
def mapSet (m : List (String × OpenTrade)) (k : String) (v : OpenTrade) :
    List (String × OpenTrade) :=
  assocSet m k v

/-- Deletion (`delete openMap[sym]`). -/
def mapDelete (m : List (String × OpenTrade)) (k : String) :
    List (String × OpenTrade) :=
  assocDelete m k

/-- The trade ledger persisted in KV: open-position map plus closed-trade
list. -/
structure Ledger where
  openTrades : List (String × OpenTrade)
  closedTrades : List ClosedTrade
deriving DecidableEq, Repr

/-! ### Close-to-flat loop (CLOSING → FLAT)

`index.ts` lines 667-744: poll the exchange-reported live position at most
8 times (`while (attempts < 8)`), each round submitting a reduce-only
market order for the quantized live quantity and sleeping a fixed 500 ms;
afterwards a final position check decides whether the ledger is updated.
Exchange responses are inputs:
* `posFetch n` — the position object reported by the n-th in-loop
  `fetchPos` call (`none` = no entry for the symbol), carrying
  `positionAmt`;
* `orderResult n` — `some px` when the n-th order submission returned
  `res.ok` with effective fill price `px`
  (`Number(resBody?.avgPrice || resBody?.price || price) || price`),
  `none` when the submission failed. -/

/-- Fixed inter-poll delay of the close loop (`setTimeout(r, 500)`). -/
def closePollDelayMs : ℚ := 500

/-- Maximum number of in-loop position polls (`while (attempts < 8)`). -/
def closeMaxAttempts : ℕ := 8

/-- Mutable locals of the close loop. -/
structure CloseState where
  attempts : ℕ
  totalQtyClosed : ℚ
  sumNotionalExit : ℚ
  lastExitPrice : ℚ
deriving DecidableEq, Repr

/-- One-step-at-a-time embedding of the `while (attempts < 8)` loop of
`index.ts` lines 692-714.  `fuel` bounds the recursion; the loop condition
`attempts < 8` is re-checked each round exactly as in the source.
`credsOk` is `base && apiKey && apiSecret` (when false, `fetchPos` is not
called and `p` is `null`). -/
def closeLoop (credsOk : Bool) (step : ℚ) (posFetch : ℕ → Option ℚ)
    (orderResult : ℕ → Option ℚ) : ℕ → CloseState → CloseState
  | 0, st => st
  | fuel + 1, st =>
    if st.attempts ≥ closeMaxAttempts then st
    else
      let st := { st with attempts := st.attempts + 1 }
      let p : Option ℚ := if credsOk then posFetch st.attempts else none
      match p with
      | none => st
      | some amt =>
        if |amt| ≤ 0 then st
        else
          let qtyRaw := |amt|
          let qty := quantizeQty qtyRaw step
          if ¬ qty > 0 then st
          else
            let st :=
              match orderResult st.attempts with
              | some px =>
                  { st with
                    totalQtyClosed := st.totalQtyClosed + qty
                    sumNotionalExit := st.sumNotionalExit + px * qty
                    lastExitPrice := px }
              | none => st
            closeLoop credsOk step posFetch orderResult fuel st

/-- The close loop as run by `vibeTick`: locals start at
`totalQtyClosed = 0`, `sumNotionalExit = 0`, `lastExitPrice = price`,
`attempts = 0`. -/
def runCloseLoop (credsOk : Bool) (step price : ℚ) (posFetch : ℕ → Option ℚ)
    (orderResult : ℕ → Option ℚ) : CloseState :=
  closeLoop credsOk step posFetch orderResult closeMaxAttempts ⟨0, 0, 0, price⟩

/-- The full CLOSING→FLAT path for one symbol (`index.ts` lines 666-743):
run the close loop, re-check the live position (`finalPos`, `none` when the
fetch returned no entry or threw), and only when the exchange reports a
flat position and something was closed append the aggregated `ClosedTrade`
and delete the open-map entry. -/
def closeToFlat (t : OpenTrade) (sym : String) (price : ℚ) (now : ℚ)
    (credsOk : Bool) (step : ℚ) (posFetch : ℕ → Option ℚ)
    (orderResult : ℕ → Option ℚ) (finalPos : Option ℚ)
    (ledger : Ledger) : Ledger :=
  let st := runCloseLoop credsOk step price posFetch orderResult
  let finalAmt : ℚ := finalPos.getD 0
  if |finalAmt| ≤ 0 ∧ st.totalQtyClosed > 0 then
    let exitPrice :=
      if st.totalQtyClosed > 0 then st.sumNotionalExit / st.totalQtyClosed
      else st.lastExitPrice
    let pnlUsd :=
      match t.side with
      | .LONG => (exitPrice - t.entryPrice) * st.totalQtyClosed
      | .SHORT => (t.entryPrice - exitPrice) * st.totalQtyClosed
    let closed : ClosedTrade :=
      { symbol := sym
        side := t.side
        qty := st.totalQtyClosed
        entryPrice := t.entryPrice
        exitPrice := exitPrice
        notionalEntry := t.entryPrice * st.totalQtyClosed
        notionalExit := exitPrice * st.totalQtyClosed
        openedAt := t.openedAt
        closedAt := now
        holdingMs := max 0 (now - t.openedAt)
        pnlUsd := pnlUsd
        provider := t.provider
        model := t.model
        thesis := t.thesis }
    { openTrades := mapDelete ledger.openTrades sym
      closedTrades := appendClosedTradeList ledger.closedTrades closed }
  else ledger

/-! ### FLAT→OPEN fill handling (flip via synthetic close)

`index.ts` lines 956-998: when a new-position market order fills
(`r.ok`), if an `OpenTrade` already exists for the symbol, a `ClosedTrade`
valuing the old position at the *new* order's market price is appended
first, and then the map entry is overwritten with the fresh snapshot. -/

/-- The synthetic close of an existing position at the new order's price
(`index.ts` lines 964-981). -/
def synthClose (existing : OpenTrade) (sym : String) (price : ℚ) (now : ℚ)
    (provider model : Option String) : ClosedTrade :=
  { symbol := sym
    side := existing.side
    qty := existing.qty
    entryPrice := existing.entryPrice
    exitPrice := price
    notionalEntry := existing.notionalEntry
    notionalExit := |existing.qty * price|
    openedAt := existing.openedAt
    closedAt := now
    holdingMs := max 0 (now - existing.openedAt)
    pnlUsd :=
      match existing.side with
      | .LONG => (price - existing.entryPrice) * existing.qty
      | .SHORT => (existing.entryPrice - price) * existing.qty
    provider := provider
    model := model
    thesis := existing.thesis }

/-- The fresh `OpenTrade` snapshot written on fill
(`index.ts` lines 983-996). -/
def newOpenTrade (sym : String) (side : Side) (qty price : ℚ) (now : ℚ)
    (provider model thesis : Option String)
    (stopLoss takeProfit : Option ℚ) (minHoldMs : Option ℚ) : OpenTrade :=
  { symbol := sym
    side := side
    qty := qty
    entryPrice := price
    notionalEntry := |qty * price|
    openedAt := now
    provider := provider
    model := model
    stopLoss := stopLoss
    takeProfit := takeProfit
    minHoldMs := minHoldMs
    thesis := thesis }

/-- Ledger update on a successful new-position fill (`index.ts` lines
960-997): synthesize a close of any existing position at the current
market price, then replace the map entry. -/
def applyFill (ledger : Ledger) (sym : String) (side : Side)
    (qty price : ℚ) (now : ℚ) (provider model thesis : Option String)
    (stopLoss takeProfit : Option ℚ) (minHoldMs : Option ℚ) : Ledger :=
  let closed' :=
    match mapGet ledger.openTrades sym with
    | some existing =>
        appendClosedTradeList ledger.closedTrades
          (synthClose existing sym price now provider model)
    | none => ledger.closedTrades
  { openTrades :=
      mapSet ledger.openTrades sym
        (newOpenTrade sym side qty price now provider model thesis
          stopLoss takeProfit minHoldMs)
    closedTrades := closed' }

/-! ### Decision Oracle Adapter

`callLLMDecider` (`index.ts` lines 521-568) parses the oracle content with
`try { parsed = JSON.parse(content) } catch {}`, so malformed JSON yields
the empty object.  In `vibeTick` (lines 755-768) a thrown oracle call is
caught, leaving `llm = { parsed: {}, meta: {} }`, and the selected symbol
and action are re-validated against the universe and the action
whitelist. -/

/-- The fields of the untrusted parsed oracle plan that decision selection
reads.  A field absent from the JSON object (or of the wrong JS type) is
`none`. -/
structure ParsedPlan where
  action : Option String := none
  symbol : Option String := none
  thesis : Option String := none
  stopLossPrice : Option ℚ := none
  takeProfitPrice : Option ℚ := none
  minHoldMinutes : Option ℚ := none
deriving DecidableEq, Repr

/-- A `JSON.parse` failure inside `callLLMDecider` leaves `parsed = {}`. -/
def emptyParsed : ParsedPlan := {}

/-- The parsed plan reaching decision selection: a thrown oracle call
(HTTP failure, missing key, network error) is caught in `vibeTick` and
leaves the empty object. -/
def parsedOfOutcome (outcome : Except String ParsedPlan) : ParsedPlan :=
  match outcome with
  | .ok p => p
  | .error _ => emptyParsed

/-- Symbol selection (`index.ts` line 767): an out-of-universe or missing
symbol falls back to the first symbol of the universe. -/
def selectSymbol (univ : List String) (p : ParsedPlan) : String :=
  match p.symbol with
  | some s => if univ.contains s then s else univ.headD ""
  | none => univ.headD ""

/-- Action selection (`index.ts` line 768): anything outside
`['LONG','SHORT','FLAT']` degrades to `FLAT`. -/
def selectAction (p : ParsedPlan) : Action :=
  match p.action with
  | some "LONG" => .LONG
  | some "SHORT" => .SHORT
  | some "FLAT" => .FLAT
  | _ => .FLAT

/-- The guard of the live-order block (`index.ts` lines 910-952): an order
submission is attempted only for a LONG/SHORT action with exchange
credentials, outside the cooldown/recent-loss skip, with notional at least
10 and a positive price. -/
def newOrderAttempted (a : Action) (hasSecret coolOk : Bool)
    (recentLossCount : ℕ) (recentLossTotal : ℚ) (notional price : ℚ) : Bool :=
  let shouldSkip := !coolOk ||
    (decide (recentLossCount ≥ 4) && decide (recentLossTotal < -150))
  (a == Action.LONG || a == Action.SHORT) && hasSecret &&
    (!shouldSkip && decide (notional ≥ 10)) && decide (price > 0)

/-! ### Equity sampling (`finally` step of `vibeTick`)

`index.ts` lines 1023-1041: the `finally` block appends an equity sample
to the rolling buffer `/vibe_equity.json` (capped at `10080 * 4`) and to
the day-keyed partition for the sample's UTC day, whenever the account
snapshot produced a positive equity reading — regardless of whether the
`try` body completed or threw. -/

/-- One point of the equity series (`{ at, equityUsd }` in `index.ts`;
the `at` field is renamed `atMs` because `at` is a Lean keyword). -/
structure EquitySample where
  atMs : ℚ
  equityUsd : ℚ
deriving DecidableEq, Repr

/-- Capacity guard of the rolling equity buffer (`10080 * 4` in
`index.ts`). -/
def equityLargeCap : ℕ := 10080 * 4

/-- Two's-field civil date. -/
structure CivilDate where
  year : ℤ
  month : ℤ
  day : ℤ
deriving DecidableEq, Repr

/-- UTC civil date from days since the Unix epoch (the computation behind
`Date`'s `getUTCFullYear`/`getUTCMonth`/`getUTCDate`). -/
def civilFromDays (z0 : ℤ) : CivilDate :=
  let z := z0 + 719468
  let era := Int.fdiv z 146097
  let doe := z - era * 146097
  let yoe := Int.fdiv (doe - Int.fdiv doe 1460 + Int.fdiv doe 36524 - Int.fdiv doe 146096) 365
  let y := yoe + era * 400
  let doy := doe - (365 * yoe + Int.fdiv yoe 4 - Int.fdiv yoe 100)
  let mp := Int.fdiv (5 * doy + 2) 153
  let d := doy - Int.fdiv (153 * mp + 2) 5 + 1
  let m := if mp < 10 then mp + 3 else mp - 9
  ⟨if m ≤ 2 then y + 1 else y, m, d⟩

/-- Embeds `String(n).padStart(2, '0')` for the date components. -/
def pad2 (n : ℤ) : String :=
  if 0 ≤ n ∧ n < 10 then "0" ++ toString n else toString n

/-- Embeds `dayKey` of `index.ts` lines 25-31: the KV key of the UTC-day equity
partition holding a sample at millisecond timestamp `ts`. -/
def dayKey (ts : ℚ) : String :=
  let c := civilFromDays ⌊ts / 86400000⌋
  "/vibe_equity_" ++ toString c.year ++ "-" ++ pad2 c.month ++ "-" ++
    pad2 c.day ++ ".json"

/-- The equity store: rolling buffer plus day-keyed partitions. -/
structure EquityStore where
  rolling : List EquitySample
  daily : List (String × List EquitySample)
deriving DecidableEq, Repr

/-- Read a day partition (KV `get` with `[]` fallback). -/
def dailyGet (d : List (String × List EquitySample)) (k : String) :
    List EquitySample :=
  (assocGet d k).getD []

/-- Write a day partition (KV `put`). -/
def dailyPut (d : List (String × List EquitySample)) (k : String)
    (v : List EquitySample) : List (String × List EquitySample) :=
  assocSet d k v

/-- The `finally` block of `vibeTick` (`index.ts` lines 1023-1041):
`if (sampledEquity && sampledEquity > 0)` append `{at, equityUsd}` to the
rolling buffer (dropping the front beyond `equityLargeCap`) and to the
day partition `dayKey nowTs`. -/
def sampleEquityFinally (sampledEquity : ℚ) (nowTs : ℚ)
    (es : EquityStore) : EquityStore :=
  if sampledEquity > 0 then
    let eq := es.rolling ++ [⟨nowTs, sampledEquity⟩]
    let eq :=
      if eq.length > equityLargeCap then eq.drop (eq.length - equityLargeCap)
      else eq
    let dk := dayKey nowTs
    let dayList := dailyGet es.daily dk ++ [⟨nowTs, sampledEquity⟩]
    ⟨eq, dailyPut es.daily dk dayList⟩
  else es

/-- The equity-relevant skeleton of `vibeTick`: `sampledEquity` is set from
the account snapshot (a thrown snapshot is caught, leaving `0`), then the
tick body runs — possibly mutating the store and possibly throwing, both
captured by the `body` parameter returning the store as left at the throw
point — and the `finally` block samples equity regardless of the body's
outcome. -/
def tickWithFinally (acctEquity : Option ℚ) (nowTs : ℚ)
    (body : EquityStore → EquityStore × Bool) (es : EquityStore) :
    EquityStore :=
  let sampledEquity := acctEquity.getD 0
  let afterBody := (body es).1
  sampleEquityFinally sampledEquity nowTs afterBody

/-! ### Admin control surface

`handleVibeRun`, `handleVibeStop` and the admin equity/trade repair
handlers of `index.ts` all begin with the same guard, before any KV access:
`const admin = env.ADMIN_KEY; const key = req.headers.get('x-admin-key') || '';`
`if (!admin || key !== admin) return 403 forbidden`. -/

/-- The `VibeConfig` record of `index.ts`. -/
structure VibeConfig where
  status : String
  -- `universe` in the source; renamed, `universe` being a Lean keyword
  universeSyms : List String
  maxRiskPerTradeUsd : ℚ
  maxDailyLossUsd : ℚ
  maxExposureUsd : ℚ
  leverageCap : ℚ
  marginMode : String
  model : String
  maxLossPerTradeUsd : Option ℚ
deriving DecidableEq, Repr

/-- Embeds `DEFAULT_VIBE_CONFIG` of `index.ts` lines 392-402. -/
def DEFAULT_VIBE_CONFIG : VibeConfig :=
  { status := "running"
    universeSyms := ["BTCUSDT", "ETHUSDT", "BNBUSDT", "XRPUSDT", "DOGEUSDT",
      "SOLUSDT", "ASTERUSDT", "CAKEUSDT", "ZORAUSDT", "PUMPUSDT", "ZECUSDT"]
    maxRiskPerTradeUsd := 1500
    maxDailyLossUsd := 2000
    maxExposureUsd := 10000
    leverageCap := 5
    marginMode := "cross"
    model := "qwen2.5-32b-instruct"
    maxLossPerTradeUsd := some 200 }

/-- One `/vibe_logs.json` entry; only the fields read back by the embedded
handlers are kept (`at`, `type`, and the `equityUsd` that
`handleVibeRestoreEquityFromLogs` scans for). -/
structure LogEntry where
  atMs : ℚ
  type : String
  equityUsd : Option ℚ := none
deriving DecidableEq, Repr

/-- Embeds `appendLog` of `index.ts` lines 415-420 (bounded at 500 entries). -/
def appendLogList (logs : List LogEntry) (e : LogEntry) : List LogEntry :=
  let l := logs ++ [e]
  if l.length > 500 then l.drop (l.length - 500) else l

/-- The persisted KV state touched by the embedded admin handlers. -/
structure KvStore where
  config : Option VibeConfig
  logs : List LogEntry
  equity : List EquitySample
  anchor : Option (ℚ × ℚ)
  closedTrades : List ClosedTrade
  openTrades : List (String × OpenTrade)
deriving DecidableEq, Repr

/-- The shared admin guard: passes iff `ADMIN_KEY` is configured non-empty
and the `x-admin-key` header (empty when absent) equals it.  `none` models
an unset environment variable; the JS falsiness of `''` makes an empty
`ADMIN_KEY` equally rejecting. -/
def adminAllowed (adminKey : Option String) (headerKey : Option String) : Bool :=
  match adminKey with
  | none => false
  | some a => if a = "" then false else decide (headerKey.getD "" = a)

/-- Request body of `handleVibeRun` (absent fields are `none`). -/
structure RunBody where
  -- `universe` in the source; renamed, `universe` being a Lean keyword
  universeSyms : Option (List String) := none
  maxRiskPerTradeUsd : Option ℚ := none
  maxDailyLossUsd : Option ℚ := none
  maxExposureUsd : Option ℚ := none
  leverageCap : Option ℚ := none
  marginMode : Option String := none
  model : Option String := none
  maxLossPerTradeUsd : Option ℚ := none
deriving DecidableEq, Repr

/-- Embeds `handleVibeRun` of `index.ts` lines 479-504: admin guard, then merge
the override body over the stored config, set status `running`, persist,
log. -/
def handleVibeRun (admin headerKey : Option String) (body : RunBody)
    (now : ℚ) (st : KvStore) : ℕ × KvStore :=
  if ¬ adminAllowed admin headerKey then (403, st)
  else
    let cfg := st.config.getD DEFAULT_VIBE_CONFIG
    let next : VibeConfig :=
      { status := "running"
        universeSyms :=
          match body.universeSyms with
          | some u => if u ≠ [] then u else cfg.universeSyms
          | none => cfg.universeSyms
        maxRiskPerTradeUsd := body.maxRiskPerTradeUsd.getD cfg.maxRiskPerTradeUsd
        maxDailyLossUsd := body.maxDailyLossUsd.getD cfg.maxDailyLossUsd
        maxExposureUsd := body.maxExposureUsd.getD cfg.maxExposureUsd
        leverageCap := body.leverageCap.getD cfg.leverageCap
        marginMode := if body.marginMode = some "isolated" then "isolated" else "cross"
        model :=
          match body.model with
          | some m => if m ≠ "" then m else cfg.model
          | none => cfg.model
        maxLossPerTradeUsd :=
          match body.maxLossPerTradeUsd with
          | some v => some v
          | none => cfg.maxLossPerTradeUsd }
    (200, { st with
        config := some next
        logs := appendLogList st.logs ⟨now, "vibe_status", none⟩ })

/-- Embeds `handleVibeStop` of `index.ts` lines 506-519: admin guard, then set
status `stopped`, persist, log. -/
def handleVibeStop (admin headerKey : Option String) (now : ℚ)
    (st : KvStore) : ℕ × KvStore :=
  if ¬ adminAllowed admin headerKey then (403, st)
  else
    let cfg := st.config.getD DEFAULT_VIBE_CONFIG
    let next : VibeConfig := { cfg with status := "stopped" }
    (200, { st with
        config := some next
        logs := appendLogList st.logs ⟨now, "vibe_status", none⟩ })

/-- Embeds `Number(v.toFixed(6))`. -/
def round6 (x : ℚ) : ℚ := ((round (x * 1000000) : ℤ) : ℚ) / 1000000

/-- Request body of `handleVibeBackfillEquity`. -/
structure BackfillBody where
  fromTs : Option ℚ := none
  toTs : Option ℚ := none
  startVal : Option ℚ := none
  endVal : Option ℚ := none
  noiseBps : ℚ := 0
  granularityMs : Option ℚ := none
deriving DecidableEq, Repr

/-- Embeds `handleVibeBackfillEquity` of `index.ts` lines 1063-1162: admin guard,
parameter validation, removal of the interior points, then linear
interpolation between the chosen endpoints at `granularityMs` spacing
(loop indices made explicit via the point count `N` computed exactly as in
the source; the noisy loop `for (i = 0, t = firstT; i <= N; ...)` runs
inclusively and so emits `N + 1` interior points, one step past `lastT`,
while the noiseless loop `for (t = firstT; t <= lastT; ...)` emits `N`).
The normalized Brownian-bridge noise values that the source derives from
`Math.random()` (each `path[i] / unit`) are the external input `noise`. -/
def handleVibeBackfillEquity (admin headerKey : Option String)
    (b : BackfillBody) (noise : ℕ → ℚ) (st : KvStore) : ℕ × KvStore :=
  if ¬ adminAllowed admin headerKey then (403, st)
  else
    match b.fromTs, b.toTs with
    | some f, some t =>
      if t ≤ f then (400, st)
      else
        let stepMs := match b.granularityMs with
          | some g => max 10000 g
          | none => 60000
        let equity := st.equity
        if equity.length < 2 then (400, st)
        else
          let kept := equity.filter (fun p => p.atMs ≤ f ∨ p.atMs ≥ t)
          let endpoints : Option (ℚ × ℚ) :=
            match b.startVal, b.endVal with
            | some sv, some ev => some (sv, ev)
            | _, _ =>
              match equity.reverse.find? (fun p => p.atMs ≤ f),
                  equity.find? (fun p => p.atMs ≥ t) with
              | some bp, some ap => some (bp.equityUsd, ap.equityUsd)
              | _, _ => none
          match endpoints with
          | none => (400, st)
          | some (aV, bV) =>
            let span := t - f
            let firstT : ℚ := (⌈(f + 1) / stepMs⌉ : ℤ) * stepMs
            let lastT : ℚ := (⌊(t - 1) / stepMs⌋ : ℤ) * stepMs
            let N : ℕ :=
              if firstT ≤ lastT then (⌊(lastT - firstT) / stepMs⌋).toNat + 1
              else 0
            let amp := |(aV + bV) / 2| * (b.noiseBps / 10000)
            let interior : List EquitySample :=
              if b.noiseBps > 0 ∧ N > 0 then
                (List.range (N + 1)).map (fun (i : ℕ) =>
                  let tm := firstT + (i : ℚ) * stepMs
                  let ratio := max 0 (min 1 ((tm - f) / span))
                  let base := aV + ratio * (bV - aV)
                  ⟨tm, round6 (base + noise i * amp)⟩)
              else
                (List.range N).map (fun (i : ℕ) =>
                  let tm := firstT + (i : ℚ) * stepMs
                  let ratio := max 0 (min 1 ((tm - f) / span))
                  ⟨tm, round6 (aV + ratio * (bV - aV))⟩)
            let inserts := ⟨f, round6 aV⟩ :: interior ++ [(⟨t, round6 bV⟩ : EquitySample)]
            let merged := (kept ++ inserts).mergeSort (fun x y => x.atMs ≤ y.atMs)
            (200, { st with equity := merged })
    | _, _ => (400, st)

/-- Embeds `handleVibeEraseEquity` of `index.ts` lines 1165-1187: admin guard,
range validation, then drop all rolling-buffer points strictly inside
`(from, to)`. -/
def handleVibeEraseEquity (admin headerKey : Option String)
    (fromTs toTs : Option ℚ) (st : KvStore) : ℕ × KvStore :=
  if ¬ adminAllowed admin headerKey then (403, st)
  else
    match fromTs, toTs with
    | some f, some t =>
      if t ≤ f then (400, st)
      else (200, { st with
        equity := st.equity.filter (fun p => p.atMs ≤ f ∨ p.atMs ≥ t) })
    | _, _ => (400, st)

/-- Embeds `handleVibeRestoreEquityFromLogs` of `index.ts` lines 1192-1230: admin
guard, range validation, then rebuild the points in `[from, to]` from the
`vibe_status` log entries. -/
def handleVibeRestoreEquityFromLogs (admin headerKey : Option String)
    (fromTs toTs : Option ℚ) (st : KvStore) : ℕ × KvStore :=
  if ¬ adminAllowed admin headerKey then (403, st)
  else
    match fromTs, toTs with
    | some f, some t =>
      if t ≤ f then (400, st)
      else
        let kept := st.equity.filter (fun p => p.atMs < f ∨ p.atMs > t)
        let restores := st.logs.filterMap (fun e =>
          if e.type = "vibe_status" ∧ f ≤ e.atMs ∧ e.atMs ≤ t then
            some (⟨e.atMs, e.equityUsd.getD 0⟩ : EquitySample)
          else none)
        if restores = [] then (404, st)
        else
          let merged := (kept ++ restores).mergeSort (fun x y => x.atMs ≤ y.atMs)
          (200, { st with equity := merged })
    | _, _ => (400, st)

/-- Embeds `handleSetAnchor` of `index.ts` lines 1302-1319: admin guard, numeric
validation, then pin the `{ at, equityUsd }` anchor. -/
def handleSetAnchor (admin headerKey : Option String)
    (atv equityUsd : Option ℚ) (st : KvStore) : ℕ × KvStore :=
  if ¬ adminAllowed admin headerKey then (403, st)
  else
    match atv, equityUsd with
    | some a, some v => (200, { st with anchor := some (a, v) })
    | _, _ => (400, st)

/-- Request body of the manual closed-trade append handler. -/
structure AppendTradeBody where
  symbol : String := ""
  side : String := ""
  qty : ℚ := 0
  entryPrice : ℚ := 0
  exitPrice : ℚ := 0
  openedAt : ℚ := 0
  closedAt : ℚ := 0
deriving DecidableEq, Repr

/-- Embeds `handleAppendClosedTrade` of `index.ts` lines 1638-1675: admin guard,
parameter validation, then append the manual `ClosedTrade`. -/
def handleAppendClosedTrade (admin headerKey : Option String)
    (b : AppendTradeBody) (now : ℚ) (st : KvStore) : ℕ × KvStore :=
  if ¬ adminAllowed admin headerKey then (403, st)
  else
    let openedAt := if b.openedAt = 0 then now else b.openedAt
    let closedAt := if b.closedAt = 0 then now else b.closedAt
    if b.symbol = "" ∨ (b.side ≠ "LONG" ∧ b.side ≠ "SHORT") ∨
        ¬ b.qty > 0 ∨ ¬ b.entryPrice > 0 ∨ ¬ b.exitPrice > 0 then (400, st)
    else
      let side : Side := if b.side = "LONG" then .LONG else .SHORT
      let pnlUsd :=
        if b.side = "LONG" then (b.exitPrice - b.entryPrice) * b.qty
        else (b.entryPrice - b.exitPrice) * b.qty
      let trade : ClosedTrade :=
        { symbol := b.symbol
          side := side
          qty := b.qty
          entryPrice := b.entryPrice
          notionalEntry := b.entryPrice * b.qty
          exitPrice := b.exitPrice
          notionalExit := b.exitPrice * b.qty
          openedAt := openedAt
          closedAt := closedAt
          holdingMs := max 0 (closedAt - openedAt)
          pnlUsd := pnlUsd
          provider := some "admin"
          model := some "qwen2.5-32b-instruct" }
      (200, { st with closedTrades := appendClosedTradeList st.closedTrades trade })

/-- A concrete stream of 2001 distinct closed trades (used to exercise the
bounded closed-trade ring). -/
def c8SampleTrades : List ClosedTrade :=
  (List.range 2001).map (fun (i : ℕ) =>
    { symbol := "BTCUSDT", side := .LONG, qty := 1, entryPrice := 1,
      exitPrice := 1, notionalEntry := 1, notionalExit := 1,
      openedAt := (i : ℚ), closedAt := (i : ℚ), holdingMs := 0,
      pnlUsd := 0 })

/-! ## Helper lemmas -/

/-- Looking up the key just written by a JS object assignment returns the
written value. -/
theorem assocGet_assocSet {α : Type} (m : List (String × α)) (k : String)
    (v : α) : assocGet (assocSet m k v) k = some v := by
  unfold assocGet assocSet
  induction m with
  | nil => simp
  | cons p m ih =>
    by_cases hp : p.1 = k
    · have hany : (p :: m).any (fun q => q.1 = k) = true := by
        simp [List.any_cons, hp]
      rw [if_pos hany]
      simp [hp]
    · have hany : (p :: m).any (fun q => q.1 = k) = m.any (fun q => q.1 = k) := by
        simp [List.any_cons, hp]
      by_cases hm : m.any (fun q => q.1 = k)
      · rw [if_pos (hany ▸ hm)]
        rw [if_pos hm] at ih
        simpa [List.find?_cons, hp] using ih
      · rw [if_neg (by simp [hany, hm])]
        rw [if_neg hm] at ih
        simpa [List.find?_cons, hp] using ih

/-- A JS object assignment preserves key uniqueness. -/
theorem assocSet_keys_nodup {α : Type} (m : List (String × α)) (k : String)
    (v : α) (h : (m.map Prod.fst).Nodup) :
    ((assocSet m k v).map Prod.fst).Nodup := by
  unfold assocSet
  by_cases hm : m.any (fun p => p.1 = k)
  · rw [if_pos hm]
    have hkeys : (m.map (fun p => if p.1 = k then (k, v) else p)).map Prod.fst
        = m.map Prod.fst := by
      rw [List.map_map]
      apply List.map_congr_left
      intro p _
      by_cases hp : p.1 = k <;> simp [hp]
    rw [hkeys]; exact h
  · rw [if_neg hm, List.map_append]
    have hk : k ∉ m.map Prod.fst := by
      simp only [List.any_eq_true, decide_eq_true_eq] at hm
      push_neg at hm
      simp only [List.mem_map]
      rintro ⟨p, hp, rfl⟩
      exact hm p hp rfl
    simp only [List.map_cons, List.map_nil]
    rw [List.nodup_append]
    refine ⟨h, List.nodup_singleton k, ?_⟩
    intro a ha hak
    simp only [List.mem_cons, List.not_mem_nil, or_false] at hak
    subst hak
    exact hk ha

/-- Dropping at most the original length from the front of `l ++ [x]`
leaves `x` as the last element. -/
theorem getLast?_drop_concat {α : Type} (l : List α) (x : α) (k : ℕ)
    (hk : k ≤ l.length) : ((l ++ [x]).drop k).getLast? = some x := by
  rw [List.drop_append_of_le_length hk]
  exact List.getLast?_concat _

/-! ## Claim theorems -/

/-- Claim C7: for every requested quantity `q > 0` and lot-size step
`s > 0`, the gateway quantization `quantize(q) = max(1, floor(q/s)) × s`
yields a positive integer multiple of `s`, is idempotent, rounds down to
the nearest step multiple for `q ≥ s`, and returns one step for
`q < s`. -/
theorem quantizeQty_spec (q s : ℚ) (hq : 0 < q) (hs : 0 < s) :
    (∃ n : ℤ, 1 ≤ n ∧ quantizeQty q s = (n : ℚ) * s) ∧
    0 < quantizeQty q s ∧
    quantizeQty (quantizeQty q s) s = quantizeQty q s ∧
    (s ≤ q → quantizeQty q s = ((⌊q / s⌋ : ℤ) : ℚ) * s) ∧
    (q < s → quantizeQty q s = s) := by
  have hs0 : s ≠ 0 := ne_of_gt hs
  have h1 : (1 : ℚ) ≤ ((max 1 ⌊q / s⌋ : ℤ) : ℚ) := by
    exact_mod_cast le_max_left 1 ⌊q / s⌋
  refine ⟨⟨max 1 ⌊q / s⌋, le_max_left _ _, rfl⟩, ?_, ?_, ?_, ?_⟩
  · unfold quantizeQty
    nlinarith
  · unfold quantizeQty
    rw [mul_div_cancel_right₀ _ hs0, Int.floor_intCast,
      max_eq_right (le_max_left 1 ⌊q / s⌋)]
  · intro hle
    unfold quantizeQty
    have : (1 : ℤ) ≤ ⌊q / s⌋ := by
      rw [Int.le_floor]
      exact_mod_cast (one_le_div hs).mpr hle
    rw [max_eq_right this]
  · intro hlt
    unfold quantizeQty
    have h0 : ⌊q / s⌋ = 0 := by
      rw [Int.floor_eq_zero_iff]
      constructor
      · positivity
      · exact (div_lt_one hs).mpr hlt
    rw [h0]
    norm_num

/-- Witness for C7 at `q = 0.0007`, `s = 0.0001`. -/
theorem quantizeQty_spec_witness :
    ((0 : ℚ) < 7 / 10000 ∧ (0 : ℚ) < 1 / 10000) ∧
    ((∃ n : ℤ, 1 ≤ n ∧ quantizeQty (7 / 10000) (1 / 10000) = (n : ℚ) * (1 / 10000)) ∧
     0 < quantizeQty (7 / 10000) (1 / 10000) ∧
     quantizeQty (quantizeQty (7 / 10000) (1 / 10000)) (1 / 10000) =
       quantizeQty (7 / 10000) (1 / 10000) ∧
     (1 / 10000 ≤ (7 : ℚ) / 10000 →
       quantizeQty (7 / 10000) (1 / 10000) =
         ((⌊(7 : ℚ) / 10000 / (1 / 10000)⌋ : ℤ) : ℚ) * (1 / 10000)) ∧
     ((7 : ℚ) / 10000 < 1 / 10000 → quantizeQty (7 / 10000) (1 / 10000) = 1 / 10000)) :=
  ⟨⟨by norm_num, by norm_num⟩,
    quantizeQty_spec (7 / 10000) (1 / 10000) (by norm_num) (by norm_num)⟩

/-- Claim C5: with a positive equity reading the proposed order size is
`min(perTradeCap, floor(equity × targetFraction))` with the fixed constant
`targetFraction = 0.5`. -/
theorem computeSizeUsd_spec (equityUsd availableBalance cap : ℚ)
    (he : 0 < equityUsd) :
    computeSizeUsd equityUsd availableBalance cap =
      min cap ((⌊equityUsd * targetFraction⌋ : ℤ) : ℚ) := by
  unfold computeSizeUsd
  rw [if_neg (ne_of_gt he)]
  have h0 : (0 : ℤ) ≤ ⌊equityUsd * targetFraction⌋ := by
    apply Int.floor_nonneg.mpr
    have ht : (0 : ℚ) ≤ targetFraction := by norm_num [targetFraction]
    positivity
  dsimp only
  rw [max_eq_right (by exact_mod_cast h0)]

/-- Witness for C5: equity 1000, cap 1500 gives `sizeUsd = 500`. -/
theorem computeSizeUsd_spec_witness :
    (0 : ℚ) < 1000 ∧ computeSizeUsd 1000 0 1500 = 500 := by
  have h := computeSizeUsd_spec 1000 0 1500 (by norm_num)
  refine ⟨by norm_num, ?_⟩
  rw [h]
  norm_num [targetFraction]

/-- Claim C9: a FLAT status emission is suppressed only when less than the
recent-window threshold has elapsed since the last emission; the recent
window is at most the forced-emit interval, so any tick at least the
recent window (in particular the forced-emit interval) after the last
emission emits. -/
theorem statusEmit_spec (isDuplicate : Bool) (nowTs lastAt eq lastEq : ℚ) :
    (statusEmit isDuplicate nowTs lastAt (pctMove eq lastEq) = false →
      nowTs - lastAt < recentWindowMs) ∧
    recentWindowMs ≤ minStatusIntervalMs ∧
    (recentWindowMs ≤ nowTs - lastAt →
      statusEmit isDuplicate nowTs lastAt (pctMove eq lastEq) = true) := by
  refine ⟨?_, by norm_num [recentWindowMs, minStatusIntervalMs], ?_⟩ <;>
    · unfold statusEmit
      split_ifs <;> simp_all

/-- Witness for C9 at a duplicate summary, 4 minutes after the last
emission, unchanged equity. -/
theorem statusEmit_spec_witness :
    (statusEmit true 240000 0 (pctMove 100 100) = false →
      (240000 : ℚ) - 0 < recentWindowMs) ∧
    recentWindowMs ≤ minStatusIntervalMs ∧
    (recentWindowMs ≤ (240000 : ℚ) - 0 →
      statusEmit true 240000 0 (pctMove 100 100) = true) :=
  statusEmit_spec true 240000 0 100 100

/-- Claim C1: a breached stop-loss schedules a close unconditionally — the
exit decision is `Stop-loss hit` regardless of the minimum-hold window and
of any simultaneously breached take-profit, the stop-loss check running
before the take-profit check. -/
theorem evalExit_stopLoss (maxLoss : Option ℚ) (t : OpenTrade)
    (price now sl : ℚ) (hsl : t.stopLoss = some sl)
    (hbreach : (t.side = .LONG ∧ price ≤ sl) ∨ (t.side = .SHORT ∧ price ≥ sl)) :
    evalExit maxLoss t price now = ⟨true, "Stop-loss hit"⟩ := by
  unfold evalExit
  rw [hsl]
  dsimp only
  rw [if_pos hbreach]
  simp

/-- Witness for C1: a LONG at entry 100 with stop 95, take-profit also
breached and minimum hold not yet elapsed, at price 94. -/
theorem evalExit_stopLoss_witness :
    evalExit (some 200)
      { symbol := "BTCUSDT", side := .LONG, qty := 2, entryPrice := 100,
        notionalEntry := 200, openedAt := 0, stopLoss := some 95,
        takeProfit := some 90, minHoldMs := some 3600000 } 94 0 =
      ⟨true, "Stop-loss hit"⟩ :=
  evalExit_stopLoss (some 200) _ 94 0 95 rfl (Or.inl ⟨rfl, by norm_num⟩)

/-- Folding the bounded append over any starting list within capacity keeps
exactly the most recent `closedTradeCap` entries, in order. -/
theorem foldl_appendClosedTradeList (ts : List ClosedTrade) :
    ∀ acc : List ClosedTrade, acc.length ≤ closedTradeCap →
      List.foldl appendClosedTradeList acc ts =
        (acc ++ ts).drop ((acc ++ ts).length - closedTradeCap) := by
  induction ts with
  | nil =>
    intro acc h
    simp [Nat.sub_eq_zero_of_le h]
  | cons t ts ih =>
    intro acc h
    rw [List.foldl_cons]
    by_cases hlen : (acc ++ [t]).length > closedTradeCap
    · have hacc : acc.length = closedTradeCap := by
        simp only [List.length_append, List.length_cons, List.length_nil] at hlen
        omega
      have h1 : 1 ≤ acc.length := by
        rw [hacc]; norm_num [closedTradeCap]
      have happ : appendClosedTradeList acc t = acc.drop 1 ++ [t] := by
        unfold appendClosedTradeList
        dsimp only
        rw [if_pos hlen]
        have hc : (acc ++ [t]).length - closedTradeCap = 1 := by
          simp [hacc]
        rw [hc, List.drop_append_of_le_length h1]
      rw [happ, ih _ (by simp [List.length_drop, hacc, closedTradeCap])]
      have hD : (acc ++ t :: ts).length - closedTradeCap = ts.length + 1 := by
        simp [hacc]
      have hD' : ((acc.drop 1 ++ [t]) ++ ts).length - closedTradeCap = ts.length := by
        simp [List.length_drop, hacc]
        omega
      rw [hD, hD']
      have e1 : (acc.drop 1 ++ [t]) ++ ts = acc.drop 1 ++ (t :: ts) := by
        simp
      have e2 : (acc ++ t :: ts).drop (ts.length + 1) =
          ((acc ++ t :: ts).drop 1).drop ts.length := by
        rw [Nat.add_comm, ← List.drop_drop]
      rw [e1, e2, List.drop_append_of_le_length h1]
    · have happ : appendClosedTradeList acc t = acc ++ [t] := by
        unfold appendClosedTradeList
        dsimp only
        rw [if_neg hlen]
      rw [happ, ih _ (le_of_not_gt hlen)]
      simp

/-- Claim C8: after any sequence of more than `closedTradeCap` appends the
closed-trade list never exceeds the capacity, the evicted entries are
exactly the oldest ones, and the survivors keep their append order (the
result is precisely the suffix of the append stream). -/
theorem closedTrades_bounded_fifo (ts : List ClosedTrade)
    (h : ts.length > closedTradeCap) :
    (List.foldl appendClosedTradeList [] ts).length ≤ closedTradeCap ∧
    List.foldl appendClosedTradeList [] ts =
      ts.drop (ts.length - closedTradeCap) := by
  have key := foldl_appendClosedTradeList ts [] (by simp)
  simp only [List.nil_append] at key
  refine ⟨?_, key⟩
  rw [key]
  simp only [List.length_drop]
  omega

/-- Witness for C8: 2001 appends into the 2000-capacity ring. -/
theorem closedTrades_bounded_fifo_witness :
    c8SampleTrades.length > closedTradeCap ∧
    ((List.foldl appendClosedTradeList [] c8SampleTrades).length ≤ closedTradeCap ∧
     List.foldl appendClosedTradeList [] c8SampleTrades =
       c8SampleTrades.drop (c8SampleTrades.length - closedTradeCap)) :=
  ⟨by unfold c8SampleTrades; rw [List.length_map, List.length_range]; norm_num [closedTradeCap],
   closedTrades_bounded_fifo c8SampleTrades
     (by unfold c8SampleTrades; rw [List.length_map, List.length_range]; norm_num [closedTradeCap])⟩

/-- The close loop never exceeds the in-loop poll bound: `attempts` stays
at most `closeMaxAttempts`. -/
theorem closeLoop_attempts_le (credsOk : Bool) (step : ℚ)
    (posFetch orderResult : ℕ → Option ℚ) :
    ∀ (fuel : ℕ) (st : CloseState), st.attempts ≤ closeMaxAttempts →
      (closeLoop credsOk step posFetch orderResult fuel st).attempts ≤
        closeMaxAttempts := by
  intro fuel
  induction fuel with
  | zero =>
    intro st h
    simpa [closeLoop] using h
  | succ n ih =>
    intro st h
    unfold closeLoop
    by_cases hc : st.attempts ≥ closeMaxAttempts
    · rw [if_pos hc]
      exact h
    · rw [if_neg hc]
      have h1 : st.attempts + 1 ≤ closeMaxAttempts := by omega
      dsimp only
      split
      · exact h1
      · split
        · exact h1
        · split
          · exact h1
          · apply ih
            split <;> exact h1

/-- Claim C2: the close-to-flat path polls the live position at most 8
times in its retry loop, and if the final position check still reports a
nonzero quantity the ledger is untouched — no `ClosedTrade` is appended
and the `OpenTrade` map entry survives unchanged. -/
theorem closeToFlat_atomic (t : OpenTrade) (sym : String) (price now : ℚ)
    (credsOk : Bool) (step : ℚ) (posFetch orderResult : ℕ → Option ℚ)
    (finalPos : Option ℚ) (ledger : Ledger) (a : ℚ)
    (hfp : finalPos = some a) (ha : 0 < |a|) :
    closeToFlat t sym price now credsOk step posFetch orderResult finalPos
      ledger = ledger ∧
    (runCloseLoop credsOk step price posFetch orderResult).attempts ≤
      closeMaxAttempts := by
  constructor
  · unfold closeToFlat
    rw [hfp]
    dsimp only [Option.getD_some]
    rw [if_neg]
    rintro ⟨h1, -⟩
    linarith
  · exact closeLoop_attempts_le credsOk step posFetch orderResult
      closeMaxAttempts ⟨0, 0, 0, price⟩ (by norm_num)

/-- Witness for C2: the exchange keeps reporting 2 ETH after every order
and after the final check; the ledger with the open ETH position is
returned unchanged. -/
theorem closeToFlat_atomic_witness :
    closeToFlat
      { symbol := "ETHUSDT", side := .LONG, qty := 2, entryPrice := 100,
        notionalEntry := 200, openedAt := 0 }
      "ETHUSDT" 90 1000 true (1 / 10000) (fun _ => some 2) (fun _ => none)
      (some 2)
      ⟨[("ETHUSDT",
         { symbol := "ETHUSDT", side := .LONG, qty := 2, entryPrice := 100,
           notionalEntry := 200, openedAt := 0 })], []⟩ =
      ⟨[("ETHUSDT",
         { symbol := "ETHUSDT", side := .LONG, qty := 2, entryPrice := 100,
           notionalEntry := 200, openedAt := 0 })], []⟩ ∧
    (runCloseLoop true (1 / 10000) 90 (fun _ => some 2)
      (fun _ => none)).attempts ≤ closeMaxAttempts :=
  closeToFlat_atomic _ "ETHUSDT" 90 1000 true (1 / 10000) _ _ _ _ 2 rfl
    (by norm_num)

/-- Claim C3: whenever the account snapshot produced a positive equity
reading, the tick's `finally` step appends the sample to the rolling
equity buffer and to the UTC-day archive partition of the sample,
regardless of what the tick body did to the store and of whether it
threw. -/
theorem tickEquity_always_sampled (acct : Option ℚ) (e nowTs : ℚ)
    (body : EquityStore → EquityStore × Bool) (es : EquityStore)
    (hacct : acct = some e) (he : 0 < e) :
    tickWithFinally acct nowTs body es =
      sampleEquityFinally e nowTs (body es).1 ∧
    (tickWithFinally acct nowTs body es).rolling.getLast? =
      some ⟨nowTs, e⟩ ∧
    (dailyGet (tickWithFinally acct nowTs body es).daily
      (dayKey nowTs)).getLast? = some ⟨nowTs, e⟩ := by
  have hmain : tickWithFinally acct nowTs body es =
      sampleEquityFinally e nowTs (body es).1 := by
    unfold tickWithFinally
    rw [hacct]
    dsimp only [Option.getD_some]
  refine ⟨hmain, ?_, ?_⟩ <;> rw [hmain] <;>
    unfold sampleEquityFinally <;> rw [if_pos he] <;> dsimp only
  · split
    · apply getLast?_drop_concat
      simp [equityLargeCap]
    · exact List.getLast?_concat _
  · unfold dailyGet dailyPut
    rw [assocGet_assocSet]
    simp [List.getLast?_concat]

/-- Witness for C3: a tick body that wipes its store and reports a thrown
error still leaves the equity sample as the last point of both series. -/
theorem tickEquity_always_sampled_witness :
    tickWithFinally (some 100) 0 (fun _ => (⟨[], []⟩, false)) ⟨[], []⟩ =
      sampleEquityFinally 100 0
        ((fun (_ : EquityStore) => ((⟨[], []⟩ : EquityStore), false)) ⟨[], []⟩).1 ∧
    (tickWithFinally (some 100) 0 (fun _ => (⟨[], []⟩, false))
      ⟨[], []⟩).rolling.getLast? = some ⟨0, 100⟩ ∧
    (dailyGet (tickWithFinally (some 100) 0 (fun _ => (⟨[], []⟩, false))
      ⟨[], []⟩).daily (dayKey 0)).getLast? = some ⟨0, 100⟩ :=
  tickEquity_always_sampled (some 100) 100 0 _ _ rfl (by norm_num)

/-- Claim C6: when a new-position fill lands on a symbol that already has
an open-map entry, the update appends exactly one `ClosedTrade` for the
old position priced at the new order's market price, then overwrites the
map entry with the fresh `OpenTrade`; key uniqueness of the open map is
preserved, so at most one position per symbol ever exists. -/
theorem applyFill_flip (ledger : Ledger) (sym : String) (side : Side)
    (qty price now : ℚ) (provider model thesis : Option String)
    (stopLoss takeProfit : Option ℚ) (minHoldMs : Option ℚ)
    (ex : OpenTrade) (hex : mapGet ledger.openTrades sym = some ex)
    (hnodup : (ledger.openTrades.map Prod.fst).Nodup) :
    (applyFill ledger sym side qty price now provider model thesis
        stopLoss takeProfit minHoldMs).closedTrades =
      appendClosedTradeList ledger.closedTrades
        (synthClose ex sym price now provider model) ∧
    (synthClose ex sym price now provider model).exitPrice = price ∧
    mapGet (applyFill ledger sym side qty price now provider model thesis
        stopLoss takeProfit minHoldMs).openTrades sym =
      some (newOpenTrade sym side qty price now provider model thesis
        stopLoss takeProfit minHoldMs) ∧
    ((applyFill ledger sym side qty price now provider model thesis
        stopLoss takeProfit minHoldMs).openTrades.map Prod.fst).Nodup := by
  refine ⟨?_, rfl, ?_, ?_⟩
  · unfold applyFill
    rw [hex]
  · unfold applyFill mapGet mapSet
    exact assocGet_assocSet _ _ _
  · unfold applyFill mapSet
    exact assocSet_keys_nodup _ _ _ hnodup

/-- Witness for C6: a LONG BTC position flipped by a SHORT fill at market
price 110. -/
theorem applyFill_flip_witness :
    (applyFill
      ⟨[("BTCUSDT",
         { symbol := "BTCUSDT", side := .LONG, qty := 1, entryPrice := 100,
           notionalEntry := 100, openedAt := 0 })], []⟩
      "BTCUSDT" .SHORT 2 110 5000 (some "qwen") (some "qwen2.5-32b-instruct")
      none none none none).closedTrades =
      appendClosedTradeList []
        (synthClose
          { symbol := "BTCUSDT", side := .LONG, qty := 1, entryPrice := 100,
            notionalEntry := 100, openedAt := 0 }
          "BTCUSDT" 110 5000 (some "qwen") (some "qwen2.5-32b-instruct")) ∧
    (synthClose
      { symbol := "BTCUSDT", side := .LONG, qty := 1, entryPrice := 100,
        notionalEntry := 100, openedAt := 0 }
      "BTCUSDT" 110 5000 (some "qwen") (some "qwen2.5-32b-instruct")).exitPrice
      = 110 ∧
    mapGet (applyFill
      ⟨[("BTCUSDT",
         { symbol := "BTCUSDT", side := .LONG, qty := 1, entryPrice := 100,
           notionalEntry := 100, openedAt := 0 })], []⟩
      "BTCUSDT" .SHORT 2 110 5000 (some "qwen") (some "qwen2.5-32b-instruct")
      none none none none).openTrades "BTCUSDT" =
      some (newOpenTrade "BTCUSDT" .SHORT 2 110 5000 (some "qwen")
        (some "qwen2.5-32b-instruct") none none none none) ∧
    ((applyFill
      ⟨[("BTCUSDT",
         { symbol := "BTCUSDT", side := .LONG, qty := 1, entryPrice := 100,
           notionalEntry := 100, openedAt := 0 })], []⟩
      "BTCUSDT" .SHORT 2 110 5000 (some "qwen") (some "qwen2.5-32b-instruct")
      none none none none).openTrades.map Prod.fst).Nodup :=
  applyFill_flip _ "BTCUSDT" .SHORT 2 110 5000 (some "qwen")
    (some "qwen2.5-32b-instruct") none none none none _ rfl (by decide)

/-- Claim C4, counterexample: an oracle response that is valid JSON with a
valid `LONG` action but an out-of-universe symbol does **not** degrade the
decision to FLAT — the code substitutes the first universe symbol and
keeps the action, and the order gate is then reachable. -/
theorem oracleOutOfUniverse_counterexample :
    selectAction { action := some "LONG", symbol := some "DOGEUSDT" } ≠
      Action.FLAT ∧
    selectSymbol ["BTCUSDT"]
      { action := some "LONG", symbol := some "DOGEUSDT" } = "BTCUSDT" ∧
    newOrderAttempted
      (selectAction { action := some "LONG", symbol := some "DOGEUSDT" })
      true true 0 0 500 100 = true := by
  decide

/-- Claim C4, amended: an oracle HTTP failure or thrown call, invalid JSON
(the empty parse result), and a missing or invalid action all degrade the
decision to FLAT, and a FLAT decision never submits a new-position order;
an out-of-universe symbol, however, is replaced by the first universe
symbol while the action is preserved. -/
theorem oracleDegrade_amended (err : String) (p : ParsedPlan)
    (univ : List String) (hasSecret coolOk : Bool) (rlc : ℕ)
    (rlt notional price : ℚ) :
    selectAction (parsedOfOutcome (Except.error err)) = Action.FLAT ∧
    selectAction emptyParsed = Action.FLAT ∧
    (p.action = none → selectAction p = Action.FLAT) ∧
    (∀ a, p.action = some a → a ≠ "LONG" → a ≠ "SHORT" →
      selectAction p = Action.FLAT) ∧
    (∀ s, p.symbol = some s → univ.contains s = false →
      selectSymbol univ p = univ.headD "") ∧
    newOrderAttempted Action.FLAT hasSecret coolOk rlc rlt notional price =
      false := by
  refine ⟨rfl, rfl, ?_, ?_, ?_, ?_⟩
  · intro h
    unfold selectAction
    rw [h]
  · intro a h hl hs
    unfold selectAction
    rw [h]
    split <;> simp_all
  · intro sy h hc
    have hmem : sy ∉ univ := by simpa using hc
    unfold selectSymbol
    rw [h]
    simp [hmem]
  · simp [newOrderAttempted]

/-- Witness for C4 (amended) at a thrown oracle call, an invalid action
`HOLD`, an out-of-universe symbol, and the FLAT order gate. -/
theorem oracleDegrade_amended_witness :
    selectAction (parsedOfOutcome (Except.error "llm_http_500")) =
      Action.FLAT ∧
    selectAction { action := some "HOLD", symbol := some "ZZZUSDT" } =
      Action.FLAT ∧
    selectSymbol ["BTCUSDT"]
      { action := some "HOLD", symbol := some "ZZZUSDT" } = "BTCUSDT" ∧
    newOrderAttempted Action.FLAT true true 0 0 500 100 = false := by
  have h := oracleDegrade_amended "llm_http_500"
    { action := some "HOLD", symbol := some "ZZZUSDT" } ["BTCUSDT"]
    true true 0 0 500 100
  exact ⟨h.1, h.2.2.2.1 "HOLD" rfl (by decide) (by decide),
    by simpa using h.2.2.2.2.1 "ZZZUSDT" rfl (by decide),
    h.2.2.2.2.2⟩

/-- Claim C10: with no `ADMIN_KEY` configured (unset, or set to the falsy
empty string), every privileged handler — run, stop, and the admin
equity/trade repair endpoints — rejects with 403 before touching any
state, whatever `x-admin-key` header is supplied: the response is
`forbidden` and the store is returned unmodified. -/
theorem adminFailClosed (headerKey : Option String) (rb : RunBody)
    (bb : BackfillBody) (noise : ℕ → ℚ) (f t av ev : Option ℚ)
    (ab : AppendTradeBody) (now : ℚ) (st : KvStore) :
    handleVibeRun none headerKey rb now st = (403, st) ∧
    handleVibeStop none headerKey now st = (403, st) ∧
    handleVibeBackfillEquity none headerKey bb noise st = (403, st) ∧
    handleVibeEraseEquity none headerKey f t st = (403, st) ∧
    handleVibeRestoreEquityFromLogs none headerKey f t st = (403, st) ∧
    handleSetAnchor none headerKey av ev st = (403, st) ∧
    handleAppendClosedTrade none headerKey ab now st = (403, st) ∧
    handleVibeRun (some "") headerKey rb now st = (403, st) ∧
    handleVibeStop (some "") headerKey now st = (403, st) := by
  refine ⟨?_, ?_, ?_, ?_, ?_, ?_, ?_, ?_, ?_⟩ <;>
    simp [handleVibeRun, handleVibeStop, handleVibeBackfillEquity,
      handleVibeEraseEquity, handleVibeRestoreEquityFromLogs,
      handleSetAnchor, handleAppendClosedTrade, adminAllowed]

end Vibe
